import Mathlib

/-!
Shallow embedding of the analytics core of `finanzas_pro_plus.py`
(`FinanceRecord`, `FinanceData` and its aggregation methods, the numeric
helpers `group_top_n` and `moving_average`, and `analyze_finances`).

Modelling conventions:
* Python `float` amounts are modelled as `ℚ` (exact arithmetic; the spec's
  stated tolerance 1e-9 only excuses float rounding noise).
* `datetime.date` is modelled by `PyDate` (year/month/day with the Gregorian
  leap rule and Python's supported range 0001-01-01 .. 9999-12-31; date
  arithmetic that would leave the range is `none`, modelling `OverflowError`).
* Python `dict`s are modelled as association lists in insertion order;
  `defaultdict(float)` accumulation is `updAdd` (add at the first occurrence
  of the key, else append).
* `strftime("%Y-%m")` keys sort as strings exactly as the pairs
  (year, month) sort lexicographically (years are zero-padded to 4 digits),
  so month keys are modelled as `Nat × Nat` with lexicographic order.
* A raised exception is modelled as `Except.error ()` / `none`.
-/

/-- Gregorian leap-year rule, as implemented by Python's `datetime`. -/
def isLeap (y : Nat) : Bool :=
  y % 4 == 0 && (y % 100 != 0 || y % 400 == 0)

/-- Number of days in month `m` of year `y`. -/
def daysInMonth (y m : Nat) : Nat :=
  if m = 2 then (if isLeap y then 29 else 28)
  else if m = 4 ∨ m = 6 ∨ m = 9 ∨ m = 11 then 30
  else 31

/-- A calendar date as `datetime.date` holds it. -/
structure PyDate where
  year : Nat
  month : Nat
  day : Nat
deriving DecidableEq, Repr

/-- The validity invariant `datetime.date` enforces at construction. -/
def PyDate.valid (d : PyDate) : Prop :=
  1 ≤ d.year ∧ d.year ≤ 9999 ∧ 1 ≤ d.month ∧ d.month ≤ 12 ∧
    1 ≤ d.day ∧ d.day ≤ daysInMonth d.year d.month

instance (d : PyDate) : Decidable d.valid := by
  unfold PyDate.valid; infer_instance

/-- Date comparison, lexicographic on (year, month, day), as Python compares
`date` values. -/
def dateLeB (a b : PyDate) : Bool :=
  if a.year ≠ b.year then a.year < b.year
  else if a.month ≠ b.month then a.month < b.month
  else a.day ≤ b.day

/-- The day after `d`, or `none` past `date.max` (9999-12-31). -/
def nextDay (d : PyDate) : Option PyDate :=
  if d.day < daysInMonth d.year d.month then some ⟨d.year, d.month, d.day + 1⟩
  else if d.month < 12 then some ⟨d.year, d.month + 1, 1⟩
  else if d.year < 9999 then some ⟨d.year + 1, 1, 1⟩
  else none

/-- The day before `d`, or `none` before `date.min` (0001-01-01). -/
def prevDay (d : PyDate) : Option PyDate :=
  if 1 < d.day then some ⟨d.year, d.month, d.day - 1⟩
  else if 1 < d.month then some ⟨d.year, d.month - 1, daysInMonth d.year (d.month - 1)⟩
  else if 1 < d.year then some ⟨d.year - 1, 12, 31⟩
  else none

/-- `d + timedelta(days=n)`; `none` models `OverflowError`. -/
def addDays (d : PyDate) : Nat → Option PyDate
  | 0 => some d
  | n + 1 => match nextDay d with
      | none => none
      | some d' => addDays d' n

/-- Split a character list at every occurrence of `sep`, keeping empty
groups (the semantics of splitting a string on `"-"`). -/
def chSplit (sep : Char) : List Char → List (List Char)
  | [] => [[]]
  | c :: rest =>
      let r := chSplit sep rest
      if c = sep then [] :: r
      else match r with
        | [] => [[c]]
        | g :: gs => (c :: g) :: gs

/-- The decimal value of a digit sequence. -/
def digitsToNat (l : List Char) : Nat :=
  l.foldl (fun a c => a * 10 + (c.toNat - '0'.toNat)) 0

/-- Every character is an ASCII digit. -/
def isDigits (l : List Char) : Bool :=
  l.all (·.isDigit)

/-- Parse one numeric field of `strptime`: `%m`/`%d` accept 1 or 2 digits
(`"00"` is rejected by the value bounds, exactly as the directive's regex
rejects it) with the directive's value range. -/
def parseField (l : List Char) (maxLen lo hi : Nat) : Option Nat :=
  if l.length = 0 ∨ maxLen < l.length ∨ ¬ isDigits l = true then none
  else if lo ≤ digitsToNat l ∧ digitsToNat l ≤ hi then some (digitsToNat l) else none

/-- `datetime.strptime(s, "%Y-%m-%d").date()` on the characters of `s`:
`%Y` is exactly four digits, `%m` is 1–2 digits valued 1–12, `%d` is 1–2
digits valued 1–31, separated by literal dashes with no surrounding text;
the resulting `date` construction additionally checks the day against the
month length and the year range. `none` models a raised `ValueError`. -/
def parseDateCh (l : List Char) : Option PyDate :=
  match chSplit '-' l with
  | [ys, ms, ds] =>
      if ys.length = 4 ∧ isDigits ys = true then
        match parseField ms 2 1 12, parseField ds 2 1 31 with
        | some m, some d =>
            if (PyDate.mk (digitsToNat ys) m d).valid
            then some ⟨digitsToNat ys, m, d⟩ else none
        | _, _ => none
      else none
  | _ => none

/-- `datetime.strptime(s, "%Y-%m-%d").date()`, raising modelled as `none`. -/
def parseDate (s : String) : Option PyDate :=
  parseDateCh s.toList

/-- One transaction (`FinanceRecord`). -/
structure FinanceRecord where
  fecha : PyDate
  tipo : String
  categoria : String
  descripcion : String
  monto : ℚ
deriving DecidableEq, Repr

/-- The record collection (`FinanceData`). -/
structure FinanceData where
  records : List FinanceRecord
deriving DecidableEq, Repr

/-- Python truthiness of an `Optional[str]`: `None` and `""` are falsy. -/
def truthy : Option String → Bool
  | none => false
  | some s => !s.isEmpty

/-- The month-branch upper bound of `filter_period`:
`(mstart.replace(day=1) + timedelta(days=32)).replace(day=1) - timedelta(days=1)`.
`mstart` already has day 1, so the first `replace` is the identity. `none`
models the `OverflowError` raised when the 32-day roll leaves the supported
date range (caught by the surrounding `except`). -/
def mendOf (mstart : PyDate) : Option PyDate :=
  match addDays ⟨mstart.year, mstart.month, 1⟩ 32 with
  | none => none
  | some a => prevDay ⟨a.year, a.month, 1⟩

/-- The month-branch predicate of `filter_period.in_range`: parse
`month + "-01"`, compute the month end by the 32-day roll, and keep dates in
`[mstart, mend]`; any exception in the `try` block (parse failure or
overflow) makes the predicate `true` (fail-open). -/
def monthPred (month : String) (d : PyDate) : Bool :=
  match parseDate (month ++ "-01") with
  | none => true
  | some mstart =>
      match mendOf mstart with
      | none => true
      | some mend => dateLeB mstart d && dateLeB d mend

/-- The range-branch body of `filter_period.in_range`: parse the bounds (a
parse failure raises, modelled by `Except.error ()`), then test
`start <= d <= end` with absent bounds open. -/
def rangePred (start e : Option String) (d : PyDate) : Except Unit Bool := do
  let s ← if truthy start then
      match parseDate (start.getD "") with
      | some x => Except.ok (some x)
      | none => Except.error ()
    else Except.ok none
  let en ← if truthy e then
      match parseDate (e.getD "") with
      | some x => Except.ok (some x)
      | none => Except.error ()
    else Except.ok none
  match s with
  | some sd => if ¬ dateLeB sd d then return false else
      match en with
      | some ed => return dateLeB d ed
      | none => return true
  | none =>
      match en with
      | some ed => return dateLeB d ed
      | none => return true

/-- The list comprehension `[r for r in records if in_range(r.fecha)]` when
`in_range` can raise: evaluate the predicate left to right and propagate the
first error. -/
def filterComp {α : Type} (p : α → Except Unit Bool) : List α → Except Unit (List α)
  | [] => Except.ok []
  | x :: xs => do
      let b ← p x
      let rest ← filterComp p xs
      return if b then x :: rest else rest

/-- `FinanceData.filter_period(month, start, end)`. When `month` is truthy
the range bounds are never parsed; otherwise the bounds are parsed while
testing each record, so a malformed bound raises at the first record (and an
empty ledger never raises). -/
def FinanceData.filter_period (fd : FinanceData) (month start e : Option String) :
    Except Unit FinanceData :=
  if truthy month then
    Except.ok ⟨fd.records.filter (fun r => monthPred (month.getD "") r.fecha)⟩
  else do
    let rs ← filterComp (fun r => rangePred start e r.fecha) fd.records
    return ⟨rs⟩

/-- `FinanceData.totals() -> (inc, exp, net)`. -/
def FinanceData.totals (fd : FinanceData) : ℚ × ℚ × ℚ :=
  let inc := ((fd.records.filter (fun r => r.tipo = "ingreso")).map (·.monto)).sum
  let exp := ((fd.records.filter (fun r => r.tipo = "gasto")).map (·.monto)).sum
  (inc, exp, inc - exp)

/-- `defaultdict(float)` accumulation: `d[k] += v` adds at the first
occurrence of `k`, else appends `(k, v)`. -/
def updAdd {κ : Type} [DecidableEq κ] : List (κ × ℚ) → κ → ℚ → List (κ × ℚ)
  | [], k, v => [(k, v)]
  | (k', v') :: t, k, v =>
      if k' = k then (k', v' + v) :: t else (k', v') :: updAdd t k v

/-- Build a `defaultdict(float)` from the records: key `f r`, increment
`g r`. -/
def accumBy {κ : Type} [DecidableEq κ] (f : FinanceRecord → κ) (g : FinanceRecord → ℚ)
    (rs : List FinanceRecord) : List (κ × ℚ) :=
  rs.foldl (fun acc r => updAdd acc (f r) (g r)) []

/-- `dict.get(k, default)` on an association list. -/
def lookupD {κ : Type} [DecidableEq κ] (l : List (κ × ℚ)) (k : κ) (dflt : ℚ) : ℚ :=
  match l with
  | [] => dflt
  | (k', v) :: t => if k' = k then v else lookupD t k dflt

/-- Signed amount of a record as the net series use it:
`+monto` for `"ingreso"`, `-monto` for anything else. -/
def signedMonto (r : FinanceRecord) : ℚ :=
  if r.tipo = "ingreso" then r.monto else -r.monto

/-- Month key of a date, modelling `strftime("%Y-%m")` (string order on the
zero-padded keys coincides with lexicographic order on the pairs). -/
def monthKey (d : PyDate) : Nat × Nat :=
  (d.year, d.month)

/-- Ascending order on month keys (the string sort of `"YYYY-MM"` keys). -/
def monthLe (a b : Nat × Nat) : Bool :=
  decide (a.1 < b.1 ∨ (a.1 = b.1 ∧ a.2 ≤ b.2))

/-- `FinanceData.by_category_expenses()`: per-category expense totals,
sorted descending by total (Python's stable sort with key `-value`). -/
def FinanceData.by_category_expenses (fd : FinanceData) : List (String × ℚ) :=
  (accumBy (·.categoria) (·.monto) (fd.records.filter (fun r => r.tipo = "gasto"))).mergeSort
    (fun a b => decide (b.2 ≤ a.2))

/-- `FinanceData.daily_series()`: date → signed net, ascending by date. -/
def FinanceData.daily_series (fd : FinanceData) : List (PyDate × ℚ) :=
  (accumBy (·.fecha) signedMonto fd.records).mergeSort
    (fun a b => dateLeB a.1 b.1)

/-- `FinanceData.monthly_net_series()`: month key → signed net, ascending. -/
def FinanceData.monthly_net_series (fd : FinanceData) : List ((Nat × Nat) × ℚ) :=
  (accumBy (fun r => monthKey r.fecha) signedMonto fd.records).mergeSort
    (fun a b => monthLe a.1 b.1)

/-- `FinanceData.monthly_inc_exp()`: month key → (income, expense, net),
keys the sorted union of the months seen on either side; a record whose
`tipo` is not `"ingreso"` is accumulated as expense. -/
def FinanceData.monthly_inc_exp (fd : FinanceData) :
    List ((Nat × Nat) × (ℚ × ℚ × ℚ)) :=
  let inc := accumBy (fun r => monthKey r.fecha) (·.monto)
    (fd.records.filter (fun r => r.tipo = "ingreso"))
  let exp := accumBy (fun r => monthKey r.fecha) (·.monto)
    (fd.records.filter (fun r => ¬ r.tipo = "ingreso"))
  let keys := ((inc.map (·.1)) ++ (exp.map (·.1))).dedup.mergeSort monthLe
  keys.map (fun k =>
    (k, (lookupD inc k 0, lookupD exp k 0, lookupD inc k 0 - lookupD exp k 0)))

/-- `FinanceData.stats()`. -/
structure Stats where
  ingresos : ℚ
  gastos : ℚ
  neto : ℚ
  top : String
  top_val : ℚ
  ahorro_pct : ℚ
deriving DecidableEq, Repr

/-- `FinanceData.stats()`: totals, top expense category, savings percent
(`net/inc*100` when `inc > 0`, else 0). -/
def FinanceData.stats (fd : FinanceData) : Stats :=
  let t := fd.totals
  let gastos := fd.by_category_expenses
  let top_cat := match gastos with
    | [] => ""
    | (c, _) :: _ => c
  let top_val := if top_cat ≠ "" then lookupD gastos top_cat 0 else 0
  let ahorro := if t.1 > 0 then t.2.2 / t.1 * 100 else 0
  ⟨t.1, t.2.1, t.2.2, top_cat, top_val, ahorro⟩

/-- `dict` assignment `out[k] = v`: replace in place at the first occurrence
of `k` (Python dicts keep the original position on update), else append. -/
def dictSet {κ : Type} [DecidableEq κ] : List (κ × ℚ) → κ → ℚ → List (κ × ℚ)
  | [], k, v => [(k, v)]
  | (k', v') :: t, k, v =>
      if k' = k then (k', v) :: t else (k', v') :: dictSet t k v

/-- `group_top_n(d, n)`: if the map has at most `n` entries return it
unchanged, else keep the first `n` entries and set `"Otros"` to the sum of
the rest. -/
def group_top_n (d : List (String × ℚ)) (n : Nat) : List (String × ℚ) :=
  if d.length ≤ n then d
  else dictSet (d.take n) "Otros" ((d.drop n).map (·.2)).sum

/-- The rolling-buffer loop of `moving_average`: `q` is the deque contents
(most recent last, length at most `w`); each step appends the new value,
drops from the left past `w`, and emits the mean of the buffer. -/
def maGo (w : Nat) (q : List ℚ) : List ℚ → List ℚ
  | [] => []
  | v :: rest =>
      let t := (q ++ [v]).drop ((q ++ [v]).length - w)
      (t.sum / (t.length : ℚ)) :: maGo w t rest

/-- `moving_average(seq, w)`: window clamped to at least 1, then a running
mean over a `deque(maxlen=w)` trailing buffer. -/
def moving_average (seq : List ℚ) (w : Int) : List ℚ :=
  maGo (max 1 w).toNat [] seq

/-- The financial settings the Analyzer reads (`DEFAULT_SETTINGS` shape);
`tope_categoria` keeps the dict's insertion order. -/
structure Settings where
  saldo_inicial : ℚ
  objetivo_ahorro_pct : ℚ
  colchon_meses_objetivo : ℚ
  tope_categoria : List (String × ℚ)
deriving DecidableEq, Repr

/-- An alert emitted by `analyze_finances`, keeping the data interpolated
into the message strings: expense growth up (over +20%), expense drop
(under -20%), a category over its cap. -/
inductive Alert where
  | growthWarn (growth : ℚ) (prev : Nat × Nat)
  | growthGood (growth : ℚ) (prev : Nat × Nat)
  | cap (cat : String) (uso tope : ℚ)
deriving DecidableEq, Repr

/-- One recommendation line: the savings-goal header, one category-cut
proposal (amount and percent of that category), the deficit line. -/
inductive Recom where
  | header
  | cut (cat : String) (amount pct : ℚ)
  | deficit (amount break_even : ℚ)
deriving DecidableEq, Repr

/-- The analysis bundle `analyze_finances` returns. -/
structure Analysis where
  prom_neto : ℚ
  runway_meses : Option ℚ
  ahorro_obj_pct : ℚ
  ahorro_real_pct : ℚ
  gap_ahorro_pct : ℚ
  break_even : ℚ
  alertas : List Alert
  recomendaciones : List Recom
  top3_gastos : List (String × ℚ)
deriving DecidableEq, Repr

/-- The cut-suggestion loop of `analyze_finances`: walk the (at most 3)
top categories, propose trimming `min(20% of the category, restante)`,
and break once `restante <= 1`. -/
def sugerLoop : List (String × ℚ) → ℚ → List Recom
  | [], _ => []
  | (cat, val) :: rest, restante =>
      let recorte := min (val * (1/5)) restante
      let step := if recorte > 0 then
          ([Recom.cut cat recorte (recorte / val * 100)], restante - recorte)
        else ([], restante)
      if step.2 ≤ 1 then step.1 else step.1 ++ sugerLoop rest step.2

/-- `analyze_finances(fd, settings)`. -/
def analyze_finances (fd : FinanceData) (st : Settings) : Analysis :=
  let t := fd.totals
  let inc := t.1
  let exp := t.2.1
  let net := t.2.2
  let gastos_cat := fd.by_category_expenses
  let monthly := fd.monthly_inc_exp
  let months := monthly.map (·.1)
  let prom_neto : ℚ :=
    if months.length = 0 then 0
    else (monthly.map (fun x => x.2.2.2)).sum / (months.length : ℚ)
  let saldo_inicial := st.saldo_inicial
  let runway_meses : Option ℚ :=
    if prom_neto < 0 ∧ saldo_inicial > 0 then
      some (max 0 (saldo_inicial / |prom_neto|))
    else none
  let objetivo_pct := st.objetivo_ahorro_pct
  let ahorro_real_pct := if inc > 0 then net / inc * 100 else 0
  let gap_ahorro_pct := objetivo_pct - ahorro_real_pct
  let break_even := exp
  let gasto_total_sum := (gastos_cat.map (·.2)).sum
  let gasto_total := if gasto_total_sum = 0 then 1 else gasto_total_sum
  let alertas_cap := st.tope_categoria.filterMap (fun ct =>
    let uso := 100 * (lookupD gastos_cat ct.1 0 / gasto_total)
    if uso > ct.2 then some (Alert.cap ct.1 uso ct.2) else none)
  let growth_alert : Option Alert :=
    if 2 ≤ monthly.length then
      let lastM := monthly.getLastD ((0, 0), (0, 0, 0))
      let prevM := monthly.dropLast.getLastD ((0, 0), (0, 0, 0))
      let gasto_last := lastM.2.2.1
      let gasto_prev := if prevM.2.2.1 = 0 then 1 else prevM.2.2.1
      let growth := 100 * (gasto_last / gasto_prev - 1)
      if growth > 20 then some (Alert.growthWarn growth prevM.1)
      else if growth < -20 then some (Alert.growthGood growth prevM.1)
      else none
    else none
  let suger :=
    if inc > 0 ∧ gap_ahorro_pct > 0 then
      let monto_extra := inc * (gap_ahorro_pct / 100)
      let cats_sorted := gastos_cat.mergeSort (fun a b => decide (b.2 ≤ a.2))
      sugerLoop (cats_sorted.take 3) monto_extra
    else []
  let recomendaciones :=
    (if suger ≠ [] then Recom.header :: suger else []) ++
      (if net < 0 then [Recom.deficit |net| break_even] else [])
  { prom_neto := prom_neto
    runway_meses := runway_meses
    ahorro_obj_pct := objetivo_pct
    ahorro_real_pct := ahorro_real_pct
    gap_ahorro_pct := gap_ahorro_pct
    break_even := break_even
    alertas := (growth_alert.toList) ++ alertas_cap
    recomendaciones := recomendaciones
    top3_gastos := gastos_cat.take 3 }

instance exceptDecEq {ε α : Type} [DecidableEq ε] [DecidableEq α] :
    DecidableEq (Except ε α) := fun a b =>
  match a, b with
  | .error e, .error e' =>
      if h : e = e' then isTrue (by rw [h])
      else isFalse (by intro hc; cases hc; exact h rfl)
  | .error _, .ok _ => isFalse (by intro hc; cases hc)
  | .ok _, .error _ => isFalse (by intro hc; cases hc)
  | .ok x, .ok y =>
      if h : x = y then isTrue (by rw [h])
      else isFalse (by intro hc; cases hc; exact h rfl)

/-- Shorthand for building a record. -/
def mkRec (y m d : Nat) (t c : String) (v : ℚ) : FinanceRecord :=
  ⟨⟨y, m, d⟩, t, c, "", v⟩

/-- The default pair fed to `getLastD` when reading the last two months. -/
def dfltMonth : (Nat × Nat) × (ℚ × ℚ × ℚ) :=
  ((0, 0), (0, 0, 0))

/-- Expense of the chronologically last month (`monthly[months[-1]][1]`). -/
def gastoLastOf (fd : FinanceData) : ℚ :=
  (fd.monthly_inc_exp.getLastD dfltMonth).2.2.1

/-- Expense of the month before the last (`monthly[months[-2]][1]`). -/
def gastoPrevOf (fd : FinanceData) : ℚ :=
  (fd.monthly_inc_exp.dropLast.getLastD dfltMonth).2.2.1

/-- Key of the month before the last (`months[-2]`). -/
def prevKeyOf (fd : FinanceData) : Nat × Nat :=
  (fd.monthly_inc_exp.dropLast.getLastD dfltMonth).1

/-- The month-over-month growth percentage
`100*(gasto_last/(gasto_prev or 1.0) - 1)`. -/
def growthOf (fd : FinanceData) : ℚ :=
  100 * (gastoLastOf fd / (if gastoPrevOf fd = 0 then 1 else gastoPrevOf fd) - 1)

/-- The end-to-end sample ledger of the spec (first three seeded rows). -/
def fdEx : FinanceData :=
  ⟨[mkRec 2025 9 25 "ingreso" "ventas" 900,
    mkRec 2025 9 26 "gasto" "alquiler" 600,
    mkRec 2025 9 27 "gasto" "marketing" 150]⟩

/-- A one-month all-expense ledger: average monthly net -100. -/
def fdRun : FinanceData :=
  ⟨[mkRec 2025 9 26 "gasto" "alquiler" 100]⟩

/-- Settings with initial balance 300 (the spec's runway example). -/
def stRun : Settings :=
  ⟨300, 10, 3, []⟩

/-- Default-like settings with no category caps. -/
def stPlain : Settings :=
  ⟨0, 10, 3, []⟩

/-- An 8-entry category map with no key named `"Otros"`. -/
def dEight : List (String × ℚ) :=
  [("a", 10), ("b", 9), ("c", 8), ("d", 7), ("e", 6), ("f", 5), ("g", 4), ("h", 3)]

/-- An 8-entry category map whose first key is literally `"Otros"`. -/
def dOtros : List (String × ℚ) :=
  [("Otros", 10), ("b", 9), ("c", 8), ("d", 7), ("e", 6), ("f", 5), ("g", 4), ("h", 3)]

/-- Two months of expenses, 500 then 650 (the spec's +30% growth example). -/
def fdGrow : FinanceData :=
  ⟨[mkRec 2025 9 10 "gasto" "alquiler" 500,
    mkRec 2025 10 10 "gasto" "alquiler" 650]⟩

/-- A leap-February record (2024-02-29). -/
def recFeb29 : FinanceRecord :=
  mkRec 2024 2 29 "gasto" "alquiler" 10

/-- A record on the day after that February (2024-03-01). -/
def recMar1 : FinanceRecord :=
  mkRec 2024 3 1 "gasto" "alquiler" 20

/-- A ledger straddling the end of February 2024. -/
def fdFeb : FinanceData :=
  ⟨[recFeb29, recMar1]⟩

/-- A single record far away from December 9999. -/
def rec2020 : FinanceRecord :=
  mkRec 2020 1 1 "gasto" "alquiler" 10

/-- Ledger used against the month filter for `"9999-12"`. -/
def fd9999 : FinanceData :=
  ⟨[rec2020]⟩

/-- A record whose `tipo` is neither `"ingreso"` nor `"gasto"`. -/
def recOther : FinanceRecord :=
  mkRec 2025 9 26 "transferencia" "varios" 5

/-- Ledger holding only the odd-kind record. -/
def fdOther : FinanceData :=
  ⟨[recOther]⟩

section DictLemmas

variable {κ : Type} [DecidableEq κ]

theorem sum_map_filter_eq {α : Type} (l : List α) (p : α → Bool) (f : α → ℚ) :
    ((l.filter p).map f).sum = (l.map (fun x => if p x then f x else 0)).sum := by
  induction l with
  | nil => rfl
  | cons x xs ih =>
      by_cases h : p x <;> simp [List.filter_cons, h, ih]

theorem lookupD_updAdd (l : List (κ × ℚ)) (k k' : κ) (v : ℚ) :
    lookupD (updAdd l k v) k' 0 = lookupD l k' 0 + if k = k' then v else 0 := by
  induction l with
  | nil =>
      by_cases h : k = k' <;> simp [updAdd, lookupD, h]
  | cons a t ih =>
      obtain ⟨k₀, v₀⟩ := a
      by_cases h1 : k₀ = k
      · by_cases h2 : k₀ = k'
        · have hk : k = k' := h1 ▸ h2
          simp [updAdd, lookupD, h1, h2, hk]
        · have hk : ¬ k = k' := fun h => h2 (h1.trans h)
          simp [updAdd, lookupD, h1, h2, hk]
      · by_cases h2 : k₀ = k'
        · have hk : ¬ k = k' := fun h => h1 (h2.trans h.symm)
          have hk2 : ¬ k' = k := fun h => hk h.symm
          simp [updAdd, lookupD, h1, h2, hk, hk2]
        · simp [updAdd, lookupD, h1, h2, ih]

theorem keys_updAdd (l : List (κ × ℚ)) (k : κ) (v : ℚ) :
    (updAdd l k v).map Prod.fst =
      if k ∈ l.map Prod.fst then l.map Prod.fst else l.map Prod.fst ++ [k] := by
  induction l with
  | nil => simp [updAdd]
  | cons a t ih =>
      obtain ⟨k₀, v₀⟩ := a
      by_cases h1 : k₀ = k
      · subst h1; simp [updAdd]
      · have hk : ¬ k = k₀ := fun h => h1 h.symm
        by_cases hm : k ∈ t.map Prod.fst <;>
          simp [updAdd, h1, ih, hm, List.mem_cons, hk]

theorem mem_keys_updAdd (l : List (κ × ℚ)) (k k' : κ) (v : ℚ) :
    k' ∈ (updAdd l k v).map Prod.fst ↔ k' ∈ l.map Prod.fst ∨ k' = k := by
  rw [keys_updAdd]
  by_cases hm : k ∈ l.map Prod.fst
  · simp only [hm, if_pos]
    constructor
    · exact Or.inl
    · rintro (h | rfl)
      · exact h
      · exact hm
  · simp [hm]

theorem keys_nodup_updAdd (l : List (κ × ℚ)) (k : κ) (v : ℚ)
    (h : (l.map Prod.fst).Nodup) : ((updAdd l k v).map Prod.fst).Nodup := by
  rw [keys_updAdd]
  by_cases hm : k ∈ l.map Prod.fst
  · simpa [hm] using h
  · simp only [hm, if_neg, not_false_iff]
    refine (List.perm_append_singleton k (l.map Prod.fst)).nodup_iff.mpr ?_
    exact List.nodup_cons.mpr ⟨hm, h⟩

theorem valsum_updAdd (l : List (κ × ℚ)) (k : κ) (v : ℚ) :
    ((updAdd l k v).map Prod.snd).sum = (l.map Prod.snd).sum + v := by
  induction l with
  | nil => simp [updAdd]
  | cons a t ih =>
      obtain ⟨k₀, v₀⟩ := a
      by_cases h1 : k₀ = k <;> simp [updAdd, h1, ih] <;> ring

theorem filter_valsum_updAdd (l : List (κ × ℚ)) (k : κ) (v : ℚ) (q : κ → Bool) :
    (((updAdd l k v).filter (fun p => q p.1)).map Prod.snd).sum
      = ((l.filter (fun p => q p.1)).map Prod.snd).sum + if q k then v else 0 := by
  induction l with
  | nil =>
      by_cases h : q k <;> simp [updAdd, List.filter_cons, h]
  | cons a t ih =>
      obtain ⟨k₀, v₀⟩ := a
      by_cases h1 : k₀ = k
      · subst h1
        by_cases h : q k₀ <;> simp [updAdd, List.filter_cons, h] <;> ring
      · by_cases h : q k₀ <;> simp [updAdd, List.filter_cons, h, h1, ih] <;> ring

theorem lookupD_foldl (f : FinanceRecord → κ) (g : FinanceRecord → ℚ)
    (rs : List FinanceRecord) :
    ∀ (acc : List (κ × ℚ)) (k : κ),
      lookupD (rs.foldl (fun a r => updAdd a (f r) (g r)) acc) k 0
        = lookupD acc k 0 + ((rs.filter (fun r => decide (f r = k))).map g).sum := by
  induction rs with
  | nil => intro acc k; simp
  | cons r t ih =>
      intro acc k
      by_cases h : f r = k
      · simp [List.filter_cons, h, List.foldl_cons, ih, lookupD_updAdd]
        ring
      · simp [List.filter_cons, h, List.foldl_cons, ih, lookupD_updAdd]

theorem mem_keys_foldl (f : FinanceRecord → κ) (g : FinanceRecord → ℚ)
    (rs : List FinanceRecord) :
    ∀ (acc : List (κ × ℚ)) (k : κ),
      k ∈ (rs.foldl (fun a r => updAdd a (f r) (g r)) acc).map Prod.fst ↔
        k ∈ acc.map Prod.fst ∨ ∃ r ∈ rs, f r = k := by
  induction rs with
  | nil => intro acc k; simp
  | cons r t ih =>
      intro acc k
      rw [List.foldl_cons, ih, mem_keys_updAdd]
      constructor
      · rintro ((h | rfl) | h)
        · exact Or.inl h
        · exact Or.inr ⟨r, List.mem_cons_self r t, rfl⟩
        · obtain ⟨r', hr', hf⟩ := h
          exact Or.inr ⟨r', List.mem_cons_of_mem r hr', hf⟩
      · rintro (h | ⟨r', hr', hf⟩)
        · exact Or.inl (Or.inl h)
        · rcases List.mem_cons.mp hr' with rfl | hmem
          · exact Or.inl (Or.inr hf.symm)
          · exact Or.inr ⟨r', hmem, hf⟩

theorem keys_nodup_foldl (f : FinanceRecord → κ) (g : FinanceRecord → ℚ)
    (rs : List FinanceRecord) :
    ∀ (acc : List (κ × ℚ)), (acc.map Prod.fst).Nodup →
      ((rs.foldl (fun a r => updAdd a (f r) (g r)) acc).map Prod.fst).Nodup := by
  induction rs with
  | nil => intro acc h; simpa using h
  | cons r t ih =>
      intro acc h
      exact ih _ (keys_nodup_updAdd _ _ _ h)

theorem valsum_foldl (f : FinanceRecord → κ) (g : FinanceRecord → ℚ)
    (rs : List FinanceRecord) :
    ∀ (acc : List (κ × ℚ)),
      ((rs.foldl (fun a r => updAdd a (f r) (g r)) acc).map Prod.snd).sum
        = (acc.map Prod.snd).sum + (rs.map g).sum := by
  induction rs with
  | nil => intro acc; simp
  | cons r t ih =>
      intro acc
      simp [List.foldl_cons, ih, valsum_updAdd]
      ring

theorem filter_valsum_foldl (f : FinanceRecord → κ) (g : FinanceRecord → ℚ)
    (q : κ → Bool) (rs : List FinanceRecord) :
    ∀ (acc : List (κ × ℚ)),
      (((rs.foldl (fun a r => updAdd a (f r) (g r)) acc).filter
          (fun p => q p.1)).map Prod.snd).sum
        = ((acc.filter (fun p => q p.1)).map Prod.snd).sum
            + ((rs.filter (fun r => q (f r))).map g).sum := by
  induction rs with
  | nil => intro acc; simp
  | cons r t ih =>
      intro acc
      by_cases h : q (f r)
      · simp [List.filter_cons, h, List.foldl_cons, ih, filter_valsum_updAdd]
        ring
      · simp [List.filter_cons, h, List.foldl_cons, ih, filter_valsum_updAdd]

theorem lookupD_accumBy (f : FinanceRecord → κ) (g : FinanceRecord → ℚ)
    (rs : List FinanceRecord) (k : κ) :
    lookupD (accumBy f g rs) k 0 = ((rs.filter (fun r => decide (f r = k))).map g).sum := by
  simpa [accumBy, lookupD] using lookupD_foldl f g rs [] k

theorem mem_keys_accumBy (f : FinanceRecord → κ) (g : FinanceRecord → ℚ)
    (rs : List FinanceRecord) (k : κ) :
    k ∈ (accumBy f g rs).map Prod.fst ↔ ∃ r ∈ rs, f r = k := by
  simpa [accumBy] using mem_keys_foldl f g rs [] k

theorem keys_nodup_accumBy (f : FinanceRecord → κ) (g : FinanceRecord → ℚ)
    (rs : List FinanceRecord) : ((accumBy f g rs).map Prod.fst).Nodup := by
  simpa [accumBy] using keys_nodup_foldl f g rs [] (by simp)

theorem valsum_accumBy (f : FinanceRecord → κ) (g : FinanceRecord → ℚ)
    (rs : List FinanceRecord) :
    ((accumBy f g rs).map Prod.snd).sum = (rs.map g).sum := by
  simpa [accumBy] using valsum_foldl f g rs []

theorem filter_valsum_accumBy (f : FinanceRecord → κ) (g : FinanceRecord → ℚ)
    (q : κ → Bool) (rs : List FinanceRecord) :
    (((accumBy f g rs).filter (fun p => q p.1)).map Prod.snd).sum
      = ((rs.filter (fun r => q (f r))).map g).sum := by
  simpa [accumBy] using filter_valsum_foldl f g q rs []

theorem lookupD_eq_of_mem_nodup (l : List (κ × ℚ)) (k : κ) (v : ℚ)
    (hmem : (k, v) ∈ l) (hnd : (l.map Prod.fst).Nodup) : lookupD l k 0 = v := by
  induction l with
  | nil => cases hmem
  | cons a t ih =>
      obtain ⟨k₀, v₀⟩ := a
      rw [List.map_cons] at hnd
      rcases List.mem_cons.mp hmem with heq | hmem'
      · cases heq
        simp [lookupD]
      · have hk : ¬ k₀ = k := by
          intro h
          subst h
          exact (List.nodup_cons.mp hnd).1
            (by simpa using List.mem_map_of_mem Prod.fst hmem')
        simp only [lookupD, hk, if_neg, not_false_iff]
        exact ih hmem' (List.nodup_cons.mp hnd).2

end DictLemmas

theorem dictSet_not_mem {κ : Type} [DecidableEq κ] (l : List (κ × ℚ)) (k : κ) (v : ℚ)
    (h : k ∉ l.map Prod.fst) : dictSet l k v = l ++ [(k, v)] := by
  induction l with
  | nil => rfl
  | cons a t ih =>
      obtain ⟨k₀, v₀⟩ := a
      rw [List.map_cons] at h
      have h1 : ¬ k₀ = k := fun he => h (he ▸ List.mem_cons_self _ _)
      have h2 : k ∉ t.map Prod.fst := fun hm => h (List.mem_cons_of_mem _ hm)
      simp [dictSet, h1, ih h2]

theorem signed_sum_eq (rs : List FinanceRecord)
    (h : ∀ r ∈ rs, r.tipo = "ingreso" ∨ r.tipo = "gasto") :
    (rs.map signedMonto).sum =
      ((rs.filter (fun r => r.tipo = "ingreso")).map (·.monto)).sum
        - ((rs.filter (fun r => r.tipo = "gasto")).map (·.monto)).sum := by
  induction rs with
  | nil => simp
  | cons r t ih =>
      have ht := ih (fun r' hr' => h r' (List.mem_cons_of_mem r hr'))
      rcases h r (List.mem_cons_self r t) with hi | hg
      · have hng : ¬ r.tipo = "gasto" := by rw [hi]; decide
        simp [List.filter_cons, hi, hng, signedMonto, ht]
        ring
      · have hni : ¬ r.tipo = "ingreso" := by rw [hg]; decide
        simp [List.filter_cons, hg, hni, signedMonto, ht]
        ring

/-- C6: `totals()` satisfies `net = income - expense`, income is the sum of
the amounts of the `"ingreso"` records, expense the sum of the amounts of
the `"gasto"` records, and the empty ledger yields `(0, 0, 0)`. -/
theorem totals_invariant (fd : FinanceData) :
    fd.totals.2.2 = fd.totals.1 - fd.totals.2.1 ∧
    fd.totals.1 =
      (fd.records.map (fun r => if r.tipo = "ingreso" then r.monto else 0)).sum ∧
    fd.totals.2.1 =
      (fd.records.map (fun r => if r.tipo = "gasto" then r.monto else 0)).sum ∧
    (FinanceData.mk []).totals = (0, 0, 0) := by
  refine ⟨rfl, ?_, ?_, by norm_num [FinanceData.totals]⟩
  · simpa using sum_map_filter_eq fd.records
      (fun r => decide (r.tipo = "ingreso")) (·.monto)
  · simpa using sum_map_filter_eq fd.records
      (fun r => decide (r.tipo = "gasto")) (·.monto)

theorem prom_neto_eq (fd : FinanceData) :
    (if (fd.monthly_inc_exp.map (fun x => x.1)).length = 0 then (0 : ℚ)
      else (fd.monthly_inc_exp.map (fun x => x.2.2.2)).sum /
        ((fd.monthly_inc_exp.map (fun x => x.1)).length : ℚ))
    = (fd.monthly_inc_exp.map (fun x => x.2.2.2)).sum /
        (fd.monthly_inc_exp.length : ℚ) := by
  rw [List.length_map]
  by_cases h : fd.monthly_inc_exp.length = 0
  · rw [if_pos h, h]
    have : fd.monthly_inc_exp = [] := List.length_eq_zero.mp h
    simp [this]
  · rw [if_neg h]

/-- C2: `runway_meses` is present in the analysis bundle iff the average
monthly net is strictly negative and the initial balance is strictly
positive; when present its value is `saldo_inicial / |avg|`, floored at 0
(and the floor is inactive, because the value is then positive); otherwise
it is `none`, not zero. -/
theorem runway_definedness (fd : FinanceData) (st : Settings) :
    ((analyze_finances fd st).runway_meses.isSome ↔
      (fd.monthly_inc_exp.map (fun x => x.2.2.2)).sum /
          (fd.monthly_inc_exp.length : ℚ) < 0 ∧ 0 < st.saldo_inicial) ∧
    ∀ x, (analyze_finances fd st).runway_meses = some x →
      x = max 0 (st.saldo_inicial /
          |(fd.monthly_inc_exp.map (fun x => x.2.2.2)).sum /
            (fd.monthly_inc_exp.length : ℚ)|) ∧
      x = st.saldo_inicial /
          |(fd.monthly_inc_exp.map (fun x => x.2.2.2)).sum /
            (fd.monthly_inc_exp.length : ℚ)| := by
  have hrw : (analyze_finances fd st).runway_meses =
      (if (if (fd.monthly_inc_exp.map (fun x => x.1)).length = 0 then (0 : ℚ)
            else (fd.monthly_inc_exp.map (fun x => x.2.2.2)).sum /
              ((fd.monthly_inc_exp.map (fun x => x.1)).length : ℚ)) < 0 ∧
            st.saldo_inicial > 0
        then some (max 0 (st.saldo_inicial /
          |(if (fd.monthly_inc_exp.map (fun x => x.1)).length = 0 then (0 : ℚ)
            else (fd.monthly_inc_exp.map (fun x => x.2.2.2)).sum /
              ((fd.monthly_inc_exp.map (fun x => x.1)).length : ℚ))|))
        else none) := rfl
  rw [prom_neto_eq] at hrw
  set avg : ℚ := (fd.monthly_inc_exp.map (fun x => x.2.2.2)).sum /
    (fd.monthly_inc_exp.length : ℚ) with havg
  by_cases hc : avg < 0 ∧ st.saldo_inicial > 0
  · rw [if_pos hc] at hrw
    have hpos : 0 < st.saldo_inicial / |avg| := by
      apply div_pos hc.2
      exact abs_pos.mpr (ne_of_lt hc.1)
    have hmax : max 0 (st.saldo_inicial / |avg|) = st.saldo_inicial / |avg| :=
      max_eq_right (le_of_lt hpos)
    constructor
    · rw [hrw]
      simp [hc]
    · intro x hx
      rw [hrw] at hx
      have : st.saldo_inicial / |avg| = x := by
        have := Option.some.inj hx
        rw [hmax] at this
        exact this
      exact ⟨by rw [← this, hmax], this.symm⟩
  · rw [if_neg hc] at hrw
    constructor
    · rw [hrw]
      simpa using hc
    · intro x hx
      rw [hrw] at hx
      cases hx

/-- Witness for C2 at the spec's example: one month with net -100 and
initial balance 300 gives a runway of exactly 3 months. -/
theorem runway_definedness_witness :
    (analyze_finances fdRun stRun).runway_meses = some 3 ∧ (3 : ℚ) =
      stRun.saldo_inicial /
        |(fdRun.monthly_inc_exp.map (fun x => x.2.2.2)).sum /
          (fdRun.monthly_inc_exp.length : ℚ)| := by
  have h1 : fdRun.monthly_inc_exp = [((2025, 9), (0, 100, -100))] := by
    simp [FinanceData.monthly_inc_exp, fdRun, mkRec, accumBy, updAdd, lookupD,
      monthKey, List.mergeSort, monthLe]
  have havg : (fdRun.monthly_inc_exp.map (fun x => x.2.2.2)).sum /
      (fdRun.monthly_inc_exp.length : ℚ) = -100 := by
    rw [h1]; norm_num
  have h := runway_definedness fdRun stRun
  have hs : (analyze_finances fdRun stRun).runway_meses.isSome := by
    refine h.1.mpr ⟨?_, ?_⟩
    · rw [havg]; norm_num
    · show (0 : ℚ) < 300; norm_num
  obtain ⟨x, hx⟩ := Option.isSome_iff_exists.mp hs
  have hval := (h.2 x hx).2
  rw [havg] at hval
  have hx3 : x = 3 := by rw [hval]; show (300 : ℚ) / |(-100 : ℚ)| = 3; norm_num
  subst hx3
  exact ⟨hx, by rw [havg]; norm_num [stRun]⟩

/-- C4 counterexample: an 8-entry map whose first key is literally
`"Otros"`, with n = 6, yields 6 entries, not the 7 the claim requires —
the folded sum overwrites the kept `"Otros"` entry in place. -/
theorem group_top_n_otros_collision :
    dOtros.length = 8 ∧ (group_top_n dOtros 6).length = 6 ∧
      ¬ (group_top_n dOtros 6).length = 7 := by
  refine ⟨by decide, ?_, ?_⟩
  · show (group_top_n dOtros 6).length = 6
    norm_num [group_top_n, dOtros, dictSet]
  · intro h
    rw [show (group_top_n dOtros 6).length = 6 from by
      norm_num [group_top_n, dOtros, dictSet]] at h
    cases h

/-- C4 (amended): if the map has at most `n` entries `group_top_n` returns
it unchanged; otherwise, provided none of the first `n` keys is the
synthetic key `"Otros"`, it keeps the first `n` entries in the given order
and appends an `"Otros"` entry holding the sum of the remaining values, so
the result has `n + 1` entries. -/
theorem group_top_n_spec (d : List (String × ℚ)) (n : Nat) :
    (d.length ≤ n → group_top_n d n = d) ∧
    (n < d.length → "Otros" ∉ (d.take n).map Prod.fst →
      group_top_n d n = d.take n ++ [("Otros", ((d.drop n).map Prod.snd).sum)] ∧
      (group_top_n d n).length = n + 1) := by
  constructor
  · intro h
    simp [group_top_n, h]
  · intro h1 h2
    have hng : ¬ d.length ≤ n := not_le.mpr h1
    have he : group_top_n d n = d.take n ++ [("Otros", ((d.drop n).map Prod.snd).sum)] := by
      simp only [group_top_n, hng, if_neg, not_false_iff]
      exact dictSet_not_mem _ _ _ h2
    refine ⟨he, ?_⟩
    rw [he]
    simp [List.length_take, Nat.min_eq_left (le_of_lt h1)]

/-- Witness for C4 at the spec's example shape: 8 entries, n = 6, no kept
key named `"Otros"` — 7 entries, the last being the sum of entries 7, 8. -/
theorem group_top_n_spec_witness :
    group_top_n dEight 6 =
      [("a", 10), ("b", 9), ("c", 8), ("d", 7), ("e", 6), ("f", 5), ("Otros", 7)] ∧
    (group_top_n dEight 6).length = 7 := by
  have h := (group_top_n_spec dEight 6).2 (by decide) (by decide)
  constructor
  · rw [h.1]
    norm_num [dEight]
  · exact h.2

/-- C10: when every record's kind is `"ingreso"` or `"gasto"`, the daily
net series, the monthly net series and `totals().net` all sum to the same
value; and the precondition is necessary — a record of any other kind
contributes 0 to `totals().net` but is subtracted as an expense by the
series. -/
theorem series_net_consistency :
    (∀ fd : FinanceData, (∀ r ∈ fd.records, r.tipo = "ingreso" ∨ r.tipo = "gasto") →
      (fd.daily_series.map Prod.snd).sum = (fd.monthly_net_series.map Prod.snd).sum ∧
      (fd.daily_series.map Prod.snd).sum = fd.totals.2.2) ∧
    (fdOther.totals.2.2 = 0 ∧ (fdOther.daily_series.map Prod.snd).sum = -5) := by
  constructor
  · intro fd h
    have hd : (fd.daily_series.map Prod.snd).sum = (fd.records.map signedMonto).sum := by
      unfold FinanceData.daily_series
      rw [((List.mergeSort_perm _ _).map Prod.snd).sum_eq, valsum_accumBy]
    have hm : (fd.monthly_net_series.map Prod.snd).sum = (fd.records.map signedMonto).sum := by
      unfold FinanceData.monthly_net_series
      rw [((List.mergeSort_perm _ _).map Prod.snd).sum_eq, valsum_accumBy]
    have ht := signed_sum_eq fd.records h
    exact ⟨by rw [hd, hm], by rw [hd, ht]; rfl⟩
  · constructor
    · simp [fdOther, recOther, mkRec, FinanceData.totals]
    · simp [fdOther, recOther, mkRec, FinanceData.daily_series, accumBy, updAdd,
        signedMonto, List.mergeSort]

/-- Witness for C10 at the seeded three-record ledger. -/
theorem series_net_consistency_witness :
    (fdEx.daily_series.map Prod.snd).sum = fdEx.totals.2.2 :=
  (series_net_consistency.1 fdEx (by decide)).2

/-- C1 counterexample: with a malformed `start` date in the range branch,
`filter_period` raises (the `try/except` only guards the month branch), so
it neither returns all records nor avoids raising. -/
theorem filter_period_range_malformed_raises :
    fdEx.filter_period none (some "bad") none = Except.error () ∧
      ¬ fdEx.filter_period none (some "bad") none = Except.ok fdEx := by
  have he : fdEx.filter_period none (some "bad") none = Except.error () := by decide
  exact ⟨he, by rw [he]; intro h; cases h⟩

/-- C1 (amended): a malformed (truthy but unparseable) month specification
fails open — `filter_period` returns all records and never raises,
regardless of the range bounds; a malformed start or end date in the range
branch instead raises. -/
theorem filter_period_month_fail_open (fd : FinanceData) (s : String)
    (stOpt en : Option String) (hne : ¬ s = "")
    (hbad : parseDate (s ++ "-01") = none) :
    fd.filter_period (some s) stOpt en = Except.ok fd := by
  have ht : truthy (some s) = true := by
    have h1 : s.isEmpty = false := by
      rw [Bool.eq_false_iff]
      intro h
      exact hne ((String.isEmpty_iff s).mp h)
    simp [truthy, h1]
  unfold FinanceData.filter_period
  rw [ht]
  simp only [if_pos, Option.getD_some]
  have hp : ∀ r : FinanceRecord, monthPred s r.fecha = true := by
    intro r
    simp [monthPred, hbad]
  rw [List.filter_eq_self.mpr (fun r _ => hp r)]

/-- Witness for C1: month `"2025-13"` is unparseable (month 13), so the
filter returns the whole ledger. -/
theorem filter_period_month_fail_open_witness :
    fdEx.filter_period (some "2025-13") none none = Except.ok fdEx :=
  filter_period_month_fail_open fdEx "2025-13" none none (by decide) (by decide)

theorem maGo_length (w : Nat) (q : List ℚ) (s : List ℚ) :
    (maGo w q s).length = s.length := by
  induction s generalizing q with
  | nil => rfl
  | cons v rest ih => simp [maGo, ih]

theorem lastWin_append (w : Nat) (hw : 1 ≤ w) (p : List ℚ) (v : ℚ) :
    (p.drop (p.length - w) ++ [v]).drop
        ((p.drop (p.length - w) ++ [v]).length - w)
      = (p ++ [v]).drop ((p ++ [v]).length - w) := by
  by_cases hle : p.length ≤ w
  · rw [Nat.sub_eq_zero_of_le hle, List.drop_zero]
  · push_neg at hle
    have hwp : w ≤ p.length := le_of_lt hle
    have hlen : (p.drop (p.length - w)).length = w := by
      rw [List.length_drop]
      omega
    have h1 : (p.drop (p.length - w) ++ [v]).length - w = 1 := by
      rw [List.length_append, hlen]
      simp
    rw [h1]
    have h2 : (p.drop (p.length - w) ++ [v]).drop 1
        = (p.drop (p.length - w)).drop 1 ++ [v] := by
      apply List.drop_append_of_le_length
      omega
    rw [h2, List.drop_drop]
    have h3 : (p ++ [v]).length - w = p.length + 1 - w := by
      rw [List.length_append]
      rfl
    rw [h3]
    have h4 : (p ++ [v]).drop (p.length + 1 - w) = p.drop (p.length + 1 - w) ++ [v] := by
      apply List.drop_append_of_le_length
      omega
    rw [h4]
    rw [show p.length - w + 1 = p.length + 1 - w from by omega]

theorem maGo_getD (w : Nat) (hw : 1 ≤ w) (s : List ℚ) :
    ∀ (p : List ℚ) (i : Nat), i < s.length →
      (maGo w (p.drop (p.length - w)) s).getD i 0 =
        ((p ++ s.take (i + 1)).drop ((p ++ s.take (i + 1)).length - w)).sum /
          ((((p ++ s.take (i + 1)).drop ((p ++ s.take (i + 1)).length - w)).length : ℚ)) := by
  induction s with
  | nil =>
      intro p i h
      cases h
  | cons v rest ih =>
      intro p i h
      rw [show maGo w (p.drop (p.length - w)) (v :: rest) =
        ((p.drop (p.length - w) ++ [v]).drop
            ((p.drop (p.length - w) ++ [v]).length - w)).sum /
          ((((p.drop (p.length - w) ++ [v]).drop
            ((p.drop (p.length - w) ++ [v]).length - w)).length : ℚ)) ::
          maGo w ((p.drop (p.length - w) ++ [v]).drop
            ((p.drop (p.length - w) ++ [v]).length - w)) rest from rfl]
      rw [lastWin_append w hw p v]
      cases i with
      | zero =>
          simp [List.getD_cons_zero]
      | succ i' =>
          rw [List.getD_cons_succ]
          have hi' : i' < rest.length := by simpa using Nat.lt_of_succ_lt_succ h
          have hgoal := ih (p ++ [v]) i' hi'
          rw [show p ++ List.take (i' + 1 + 1) (v :: rest)
              = (p ++ [v]) ++ List.take (i' + 1) rest from by
            rw [List.take_succ_cons, ← List.singleton_append, ← List.append_assoc]]
          exact hgoal

/-- C7: `moving_average` clamps the window to at least 1, returns a list of
the same length as the input, and each position holds the mean of the
(up to `window`) most recent values ending at that position. -/
theorem moving_average_spec (seq : List ℚ) (w : Int) :
    (moving_average seq w).length = seq.length ∧
    1 ≤ (max 1 w).toNat ∧
    ∀ i, i < seq.length →
      (moving_average seq w).getD i 0 =
        ((seq.take (i + 1)).drop (i + 1 - (max 1 w).toNat)).sum /
          ((((seq.take (i + 1)).drop (i + 1 - (max 1 w).toNat)).length : ℚ)) := by
  have hw : 1 ≤ (max 1 w).toNat := by
    have h1 : (1 : Int) ≤ max 1 w := le_max_left 1 w
    calc (1 : Nat) = (1 : Int).toNat := rfl
    _ ≤ (max 1 w).toNat := Int.toNat_le_toNat h1
  refine ⟨maGo_length _ _ _, hw, ?_⟩
  intro i h
  have hmg := maGo_getD (max 1 w).toNat hw seq [] i h
  simp only [List.nil_append, List.drop_nil, List.length_nil, Nat.zero_sub] at hmg
  have hlen : (seq.take (i + 1)).length = min (i + 1) seq.length := List.length_take _ _
  have harg : (seq.take (i + 1)).length - (max 1 w).toNat = i + 1 - (max 1 w).toNat := by
    rw [hlen]
    omega
  rw [moving_average, hmg, harg]

/-- Witness for C7 at the spec's boundary example: `[10, 20, 30]` with
window 5 gives `[10, 15, 20]`. -/
theorem moving_average_spec_witness :
    moving_average [10, 20, 30] 5 = [(10 : ℚ), 15, 20] ∧
    (moving_average [(10 : ℚ), 20, 30] 5).getD 1 0 = 15 := by
  constructor
  · show maGo (max 1 (5:Int)).toNat [] [10, 20, 30] = [(10 : ℚ), 15, 20]
    norm_num [maGo]
  · have h := (moving_average_spec [(10 : ℚ), 20, 30] 5).2.2 1 (by norm_num)
    rw [h]
    norm_num

/-- C3: with at least two months of data the analyzer compares the
chronologically last two months, `growthPct = 100*(lastExpense/
prevExpenseOrOneIfZero - 1)`; a warning alert is emitted iff
`growthPct > 20`, a positive alert iff `growthPct < -20`, no growth alert
within `[-20, 20]`; with fewer than two months no growth alert at all. -/
theorem growth_alert_iff (fd : FinanceData) (st : Settings) :
    (2 ≤ fd.monthly_inc_exp.length →
      ∀ g p, ((Alert.growthWarn g p ∈ (analyze_finances fd st).alertas) ↔
            (20 < growthOf fd ∧ g = growthOf fd ∧ p = prevKeyOf fd)) ∧
          ((Alert.growthGood g p ∈ (analyze_finances fd st).alertas) ↔
            (growthOf fd < -20 ∧ g = growthOf fd ∧ p = prevKeyOf fd))) ∧
    (fd.monthly_inc_exp.length < 2 →
      ∀ g p, Alert.growthWarn g p ∉ (analyze_finances fd st).alertas ∧
             Alert.growthGood g p ∉ (analyze_finances fd st).alertas) := by
  have hrw : (analyze_finances fd st).alertas =
      (if 2 ≤ fd.monthly_inc_exp.length then
          (if 20 < growthOf fd
           then some (Alert.growthWarn (growthOf fd) (prevKeyOf fd))
           else if growthOf fd < -20
           then some (Alert.growthGood (growthOf fd) (prevKeyOf fd))
           else none)
        else none).toList ++
      st.tope_categoria.filterMap (fun ct =>
        if 100 * (lookupD fd.by_category_expenses ct.1 0 /
            (if (fd.by_category_expenses.map (·.2)).sum = 0 then 1
             else (fd.by_category_expenses.map (·.2)).sum)) > ct.2
        then some (Alert.cap ct.1 (100 * (lookupD fd.by_category_expenses ct.1 0 /
            (if (fd.by_category_expenses.map (·.2)).sum = 0 then 1
             else (fd.by_category_expenses.map (·.2)).sum))) ct.2)
        else none) := rfl
  have hcap : ∀ a : Alert, a ∈ st.tope_categoria.filterMap (fun ct =>
        if 100 * (lookupD fd.by_category_expenses ct.1 0 /
            (if (fd.by_category_expenses.map (·.2)).sum = 0 then 1
             else (fd.by_category_expenses.map (·.2)).sum)) > ct.2
        then some (Alert.cap ct.1 (100 * (lookupD fd.by_category_expenses ct.1 0 /
            (if (fd.by_category_expenses.map (·.2)).sum = 0 then 1
             else (fd.by_category_expenses.map (·.2)).sum))) ct.2)
        else none) →
      ∃ c u t, a = Alert.cap c u t := by
    intro a ha
    obtain ⟨ct, _, hct⟩ := List.mem_filterMap.mp ha
    by_cases hcond : 100 * (lookupD fd.by_category_expenses ct.1 0 /
        (if (fd.by_category_expenses.map (·.2)).sum = 0 then 1
         else (fd.by_category_expenses.map (·.2)).sum)) > ct.2
    · rw [if_pos hcond] at hct
      exact ⟨ct.1, _, ct.2, (Option.some.inj hct).symm⟩
    · rw [if_neg hcond] at hct
      cases hct
  constructor
  · intro h2 g p
    rw [hrw, if_pos h2]
    by_cases hgt : 20 < growthOf fd
    · rw [if_pos hgt]
      constructor
      · simp only [Option.toList_some, List.singleton_append, List.mem_cons]
        constructor
        · rintro (he | hc)
          · cases he
            exact ⟨hgt, rfl, rfl⟩
          · obtain ⟨c, u, t, hct⟩ := hcap _ hc
            cases hct
        · rintro ⟨_, rfl, rfl⟩
          exact Or.inl rfl
      · simp only [Option.toList_some, List.singleton_append, List.mem_cons]
        constructor
        · rintro (he | hc)
          · cases he
          · obtain ⟨c, u, t, hct⟩ := hcap _ hc
            cases hct
        · rintro ⟨hlt, _, _⟩
          exact absurd hlt (by linarith)
    · rw [if_neg hgt]
      by_cases hlt : growthOf fd < -20
      · rw [if_pos hlt]
        constructor
        · simp only [Option.toList_some, List.singleton_append, List.mem_cons]
          constructor
          · rintro (he | hc)
            · cases he
            · obtain ⟨c, u, t, hct⟩ := hcap _ hc
              cases hct
          · rintro ⟨hgt', _, _⟩
            exact absurd hgt' hgt
        · simp only [Option.toList_some, List.singleton_append, List.mem_cons]
          constructor
          · rintro (he | hc)
            · cases he
              exact ⟨hlt, rfl, rfl⟩
            · obtain ⟨c, u, t, hct⟩ := hcap _ hc
              cases hct
          · rintro ⟨_, rfl, rfl⟩
            exact Or.inl rfl
      · rw [if_neg hlt]
        constructor
        · simp only [Option.toList_none, List.nil_append]
          constructor
          · intro hc
            obtain ⟨c, u, t, hct⟩ := hcap _ hc
            cases hct
          · rintro ⟨hgt', _, _⟩
            exact absurd hgt' hgt
        · simp only [Option.toList_none, List.nil_append]
          constructor
          · intro hc
            obtain ⟨c, u, t, hct⟩ := hcap _ hc
            cases hct
          · rintro ⟨hlt', _, _⟩
            exact absurd hlt' hlt
  · intro hlt2 g p
    rw [hrw, if_neg (by omega : ¬ 2 ≤ fd.monthly_inc_exp.length)]
    simp only [Option.toList_none, List.nil_append]
    constructor
    · intro hc
      obtain ⟨c, u, t, hct⟩ := hcap _ hc
      cases hct
    · intro hc
      obtain ⟨c, u, t, hct⟩ := hcap _ hc
      cases hct

/-- Witness for C3 at the spec's example: expenses 500 then 650 give +30%
growth and a warning alert naming the previous month. -/
theorem growth_alert_iff_witness :
    Alert.growthWarn 30 (2025, 9) ∈ (analyze_finances fdGrow stPlain).alertas := by
  have h1 : fdGrow.monthly_inc_exp =
      [((2025, 9), (0, 500, -500)), ((2025, 10), (0, 650, -650))] := by
    simp [FinanceData.monthly_inc_exp, fdGrow, mkRec, accumBy, updAdd, lookupD,
      monthKey, List.mergeSort, monthLe]
  have hg : growthOf fdGrow = 30 := by
    rw [growthOf, gastoLastOf, gastoPrevOf, h1]
    norm_num [dfltMonth]
  have hk : prevKeyOf fdGrow = (2025, 9) := by
    rw [prevKeyOf, h1]
    rfl
  have h := ((growth_alert_iff fdGrow stPlain).1 (by rw [h1]; norm_num) 30 (2025, 9)).1
  exact h.mpr ⟨by rw [hg]; norm_num, hg.symm, hk.symm⟩

/-- C8: no ratio computation in the core divides by zero — the savings
percent substitutes 0 when income is not positive, the category-cap usage
divisor is 1 when the total expense is 0 (giving usage 0 on valid records),
and the growth divisor is 1 when the previous month's expense is 0. -/
theorem no_division_by_zero (fd : FinanceData) (st : Settings)
    (hval : ∀ r ∈ fd.records, 0 < r.monto) :
    (¬ 0 < fd.totals.1 →
      fd.stats.ahorro_pct = 0 ∧ (analyze_finances fd st).ahorro_real_pct = 0) ∧
    ((if (fd.by_category_expenses.map (·.2)).sum = 0 then (1 : ℚ)
      else (fd.by_category_expenses.map (·.2)).sum) ≠ 0) ∧
    ((fd.by_category_expenses.map (·.2)).sum = 0 → ∀ c : String,
      100 * (lookupD fd.by_category_expenses c 0 /
        (if (fd.by_category_expenses.map (·.2)).sum = 0 then (1 : ℚ)
         else (fd.by_category_expenses.map (·.2)).sum)) = 0) ∧
    ((if gastoPrevOf fd = 0 then (1 : ℚ) else gastoPrevOf fd) ≠ 0) ∧
    (gastoPrevOf fd = 0 → growthOf fd = 100 * (gastoLastOf fd / 1 - 1)) := by
  refine ⟨?_, ?_, ?_, ?_, ?_⟩
  · intro hni
    have h1 : fd.stats.ahorro_pct =
        (if fd.totals.1 > 0 then fd.totals.2.2 / fd.totals.1 * 100 else 0) := rfl
    have h2 : (analyze_finances fd st).ahorro_real_pct =
        (if fd.totals.1 > 0 then fd.totals.2.2 / fd.totals.1 * 100 else 0) := rfl
    rw [h1, h2, if_neg hni]
    exact ⟨rfl, rfl⟩
  · by_cases h : (fd.by_category_expenses.map (·.2)).sum = 0
    · rw [if_pos h]
      exact one_ne_zero
    · rw [if_neg h]
      exact h
  · intro htot c
    have hsum : (fd.by_category_expenses.map (·.2)).sum =
        ((fd.records.filter (fun r => r.tipo = "gasto")).map (·.monto)).sum := by
      unfold FinanceData.by_category_expenses
      rw [((List.mergeSort_perm _ _).map _).sum_eq, valsum_accumBy]
    have hgs : fd.records.filter (fun r => r.tipo = "gasto") = [] := by
      rcases hgs : fd.records.filter (fun r => r.tipo = "gasto") with _ | ⟨g, t⟩
      · exact hgs
      · exfalso
        have hpos : 0 < ((g :: t).map (·.monto)).sum := by
          apply List.sum_pos
          · intro x hx
            obtain ⟨r, hr, hrx⟩ := List.mem_map.mp hx
            have : r ∈ fd.records := (List.mem_filter.mp (hgs ▸ hr)).1
            exact hrx ▸ hval r this
          · simp
        rw [hsum, hgs] at htot
        rw [htot] at hpos
        exact lt_irrefl 0 hpos
    have hbc : fd.by_category_expenses = [] := by
      unfold FinanceData.by_category_expenses
      rw [hgs]
      simp [accumBy]
    rw [hbc]
    simp [lookupD]
  · by_cases h : gastoPrevOf fd = 0
    · rw [if_pos h]
      exact one_ne_zero
    · rw [if_neg h]
      exact h
  · intro h
    rw [growthOf, h, if_pos rfl]

/-- Witness for C8 at the empty ledger: income is 0, so the savings percent
is 0; the total expense is 0, so the `"marketing"` usage percent is 0. -/
theorem no_division_by_zero_witness :
    (FinanceData.mk []).stats.ahorro_pct = 0 ∧
    100 * (lookupD (FinanceData.mk []).by_category_expenses "marketing" 0 /
      (if ((FinanceData.mk []).by_category_expenses.map (·.2)).sum = 0 then (1 : ℚ)
       else ((FinanceData.mk []).by_category_expenses.map (·.2)).sum)) = 0 := by
  have h := no_division_by_zero (FinanceData.mk []) stPlain (by simp)
  refine ⟨(h.1 ?_).1, h.2.2.1 ?_ "marketing"⟩
  · show ¬ 0 < (FinanceData.mk []).totals.1
    norm_num [FinanceData.totals]
  · simp [FinanceData.by_category_expenses, accumBy, List.mergeSort]

/-- C9: every (key, value) entry of the monthly net series carries exactly
the sum of the daily net series entries whose date falls in that month, and
the month keys are exactly the months of the dates in the daily series. -/
theorem month_coverage (fd : FinanceData) :
    (∀ k v, (k, v) ∈ fd.monthly_net_series →
      v = ((fd.daily_series.filter (fun p => decide (monthKey p.1 = k))).map
        Prod.snd).sum) ∧
    (∀ k, k ∈ fd.monthly_net_series.map Prod.fst ↔
      k ∈ (fd.daily_series.map Prod.fst).map monthKey) := by
  have hmperm := List.mergeSort_perm
    (accumBy (fun r => monthKey r.fecha) signedMonto fd.records)
    (fun a b => monthLe a.1 b.1)
  have hdperm := List.mergeSort_perm
    (accumBy (·.fecha) signedMonto fd.records)
    (fun a b => dateLeB a.1 b.1)
  constructor
  · intro k v hmem
    have hmem' : (k, v) ∈ accumBy (fun r => monthKey r.fecha) signedMonto fd.records :=
      hmperm.mem_iff.mp hmem
    have hv : lookupD (accumBy (fun r => monthKey r.fecha) signedMonto fd.records) k 0 = v :=
      lookupD_eq_of_mem_nodup _ _ _ hmem' (keys_nodup_accumBy _ _ _)
    rw [lookupD_accumBy] at hv
    have hdsum : ((fd.daily_series.filter (fun p => decide (monthKey p.1 = k))).map
        Prod.snd).sum =
        (((accumBy (·.fecha) signedMonto fd.records).filter
          (fun p => decide (monthKey p.1 = k))).map Prod.snd).sum :=
      ((hdperm.filter _).map Prod.snd).sum_eq
    have hfv := filter_valsum_accumBy (·.fecha) signedMonto
      (fun d => decide (monthKey d = k)) fd.records
    rw [hdsum, hfv]
    exact hv.symm
  · intro k
    have hml : k ∈ fd.monthly_net_series.map Prod.fst ↔
        ∃ r ∈ fd.records, monthKey r.fecha = k := by
      show k ∈ ((accumBy (fun r => monthKey r.fecha) signedMonto fd.records).mergeSort
        (fun a b => monthLe a.1 b.1)).map Prod.fst ↔ _
      rw [(hmperm.map Prod.fst).mem_iff]
      exact mem_keys_accumBy _ _ _ _
    have hdl : ∀ d, d ∈ fd.daily_series.map Prod.fst ↔ ∃ r ∈ fd.records, r.fecha = d := by
      intro d
      show d ∈ ((accumBy (·.fecha) signedMonto fd.records).mergeSort
        (fun a b => dateLeB a.1 b.1)).map Prod.fst ↔ _
      rw [(hdperm.map Prod.fst).mem_iff]
      exact mem_keys_accumBy _ _ _ _
    rw [hml]
    constructor
    · rintro ⟨r, hr, hrk⟩
      exact List.mem_map.mpr ⟨r.fecha, (hdl r.fecha).mpr ⟨r, hr, rfl⟩, hrk⟩
    · intro h
      obtain ⟨d, hd, hdk⟩ := List.mem_map.mp h
      obtain ⟨r, hr, hrd⟩ := (hdl d).mp hd
      exact ⟨r, hr, by rw [hrd, hdk]⟩

/-- Witness for C9 at the seeded ledger: the single month key (2025, 9)
carries 150, the sum of that month's daily entries. -/
theorem month_coverage_witness :
    ((2025, 9), (150 : ℚ)) ∈ fdEx.monthly_net_series ∧
    (150 : ℚ) = ((fdEx.daily_series.filter (fun p =>
      decide (monthKey p.1 = (2025, 9)))).map Prod.snd).sum := by
  have hm : ((2025, 9), (150 : ℚ)) ∈ fdEx.monthly_net_series := by
    simp [FinanceData.monthly_net_series, fdEx, mkRec, accumBy, updAdd, monthKey,
      signedMonto, List.mergeSort, monthLe]
    norm_num
  exact ⟨hm, (month_coverage fdEx).1 (2025, 9) 150 hm⟩

theorem daysInMonth_ge (y m : Nat) : 28 ≤ daysInMonth y m := by
  unfold daysInMonth
  split_ifs <;> omega

theorem daysInMonth_le (y m : Nat) : daysInMonth y m ≤ 31 := by
  unfold daysInMonth
  split_ifs <;> omega

theorem daysInMonth_dec (y : Nat) : daysInMonth y 12 = 31 := by
  unfold daysInMonth
  norm_num

theorem daysInMonth_jan (y : Nat) : daysInMonth y 1 = 31 := by
  unfold daysInMonth
  norm_num

theorem addDays_within (y m : Nat) :
    ∀ (n d : Nat), 1 ≤ d → d + n ≤ daysInMonth y m →
      addDays ⟨y, m, d⟩ n = some ⟨y, m, d + n⟩ := by
  intro n
  induction n with
  | zero =>
      intro d _ _
      rfl
  | succ n ih =>
      intro d hd hdn
      have hlt : d < daysInMonth y m := by omega
      show (match nextDay ⟨y, m, d⟩ with
        | none => none
        | some d' => addDays d' n) = some ⟨y, m, d + (n + 1)⟩
      rw [show nextDay ⟨y, m, d⟩ = some ⟨y, m, d + 1⟩ from by
        unfold nextDay
        rw [if_pos hlt]]
      show addDays ⟨y, m, d + 1⟩ n = some ⟨y, m, d + (n + 1)⟩
      rw [ih (d + 1) (by omega) (by omega),
        show d + 1 + n = d + (n + 1) from by omega]

theorem addDays_add (a : Nat) :
    ∀ (d : PyDate) (b : Nat),
      addDays d (a + b) = (match addDays d a with
        | none => none
        | some d' => addDays d' b) := by
  induction a with
  | zero =>
      intro d b
      rw [Nat.zero_add]
      rfl
  | succ a ih =>
      intro d b
      rw [show a + 1 + b = (a + b) + 1 from by omega]
      cases hnd : nextDay d with
      | none => simp only [addDays, hnd]
      | some d' =>
          simp only [addDays, hnd]
          exact ih d' b

theorem mendOf_eq (y m : Nat) (hm1 : 1 ≤ m) (hm2 : m ≤ 12) (hy1 : 1 ≤ y)
    (hy2 : y ≤ 9999) (hnot : ¬ (y = 9999 ∧ m = 12)) :
    mendOf ⟨y, m, 1⟩ = some ⟨y, m, daysInMonth y m⟩ := by
  have hk28 : 28 ≤ daysInMonth y m := daysInMonth_ge y m
  have hk31 : daysInMonth y m ≤ 31 := daysInMonth_le y m
  have h1 : addDays ⟨y, m, 1⟩ (daysInMonth y m - 1) = some ⟨y, m, daysInMonth y m⟩ := by
    have h := addDays_within y m (daysInMonth y m - 1) 1 (by omega) (by omega)
    rw [show 1 + (daysInMonth y m - 1) = daysInMonth y m from by omega] at h
    exact h
  show (match addDays ⟨y, m, 1⟩ 32 with
    | none => none
    | some a => prevDay ⟨a.year, a.month, 1⟩) = some ⟨y, m, daysInMonth y m⟩
  rw [show (32 : Nat) = (daysInMonth y m - 1) + (33 - daysInMonth y m) from by omega,
    addDays_add, h1]
  show (match addDays ⟨y, m, daysInMonth y m⟩ (33 - daysInMonth y m) with
    | none => none
    | some a => prevDay ⟨a.year, a.month, 1⟩) = some ⟨y, m, daysInMonth y m⟩
  rw [show 33 - daysInMonth y m = (32 - daysInMonth y m) + 1 from by omega]
  by_cases hm12 : m = 12
  · subst hm12
    have hy : y < 9999 := by
      rcases Nat.lt_or_ge y 9999 with h | h
      · exact h
      · exact absurd ⟨by omega, rfl⟩ hnot
    have hnd : nextDay ⟨y, 12, daysInMonth y 12⟩ = some ⟨y + 1, 1, 1⟩ := by
      unfold nextDay
      dsimp only
      rw [if_neg (by omega), if_neg (by omega), if_pos hy]
    show (match (match nextDay ⟨y, 12, daysInMonth y 12⟩ with
        | none => none
        | some d' => addDays d' (32 - daysInMonth y 12)) with
      | none => none
      | some a => prevDay ⟨a.year, a.month, 1⟩) = some ⟨y, 12, daysInMonth y 12⟩
    rw [hnd]
    show (match addDays ⟨y + 1, 1, 1⟩ (32 - daysInMonth y 12) with
      | none => none
      | some a => prevDay ⟨a.year, a.month, 1⟩) = some ⟨y, 12, daysInMonth y 12⟩
    rw [addDays_within (y + 1) 1 (32 - daysInMonth y 12) 1 (by omega)
      (by have hj := daysInMonth_jan (y + 1); omega)]
    show prevDay ⟨y + 1, 1, 1⟩ = some ⟨y, 12, daysInMonth y 12⟩
    unfold prevDay
    dsimp only
    rw [if_neg (by omega), if_neg (by omega), if_pos (by omega : 1 < y + 1)]
    rw [show y + 1 - 1 = y from by omega, daysInMonth_dec]
  · have hmlt : m < 12 := by omega
    have hnd : nextDay ⟨y, m, daysInMonth y m⟩ = some ⟨y, m + 1, 1⟩ := by
      unfold nextDay
      dsimp only
      rw [if_neg (by omega), if_pos hmlt]
    show (match (match nextDay ⟨y, m, daysInMonth y m⟩ with
        | none => none
        | some d' => addDays d' (32 - daysInMonth y m)) with
      | none => none
      | some a => prevDay ⟨a.year, a.month, 1⟩) = some ⟨y, m, daysInMonth y m⟩
    rw [hnd]
    show (match addDays ⟨y, m + 1, 1⟩ (32 - daysInMonth y m) with
      | none => none
      | some a => prevDay ⟨a.year, a.month, 1⟩) = some ⟨y, m, daysInMonth y m⟩
    rw [addDays_within y (m + 1) (32 - daysInMonth y m) 1 (by omega)
      (by have h28 := daysInMonth_ge y (m + 1); omega)]
    show prevDay ⟨y, m + 1, 1⟩ = some ⟨y, m, daysInMonth y m⟩
    unfold prevDay
    dsimp only
    rw [if_neg (by omega), if_pos (by omega : 1 < m + 1)]
    rw [show m + 1 - 1 = m from by omega]

/-- C5 counterexample: `"9999-12"` is a well-formed month string, yet the
32-day roll used to compute the month end overflows `date.max`, the
`except` catches the `OverflowError`, and the filter fails open: a record
dated 2020-01-01, far outside December 9999, is kept. -/
theorem month_filter_overflow_fail_open :
    parseDate "9999-12-01" = some ⟨9999, 12, 1⟩ ∧
    fd9999.filter_period (some "9999-12") none none = Except.ok fd9999 ∧
    ¬ ((dateLeB ⟨9999, 12, 1⟩ rec2020.fecha &&
        dateLeB rec2020.fecha ⟨9999, 12, 31⟩) = true) := by
  refine ⟨by decide, by decide, by decide⟩

/-- C5 (amended): for every month string that parses as a month `(y, m)`
other than December 9999 (where the month-end roll overflows and the filter
fails open), filtering keeps exactly the records whose date lies between
the first and the last calendar day of that month — the last day computed
correctly for every month length, February of leap years included. -/
theorem month_filter_exact (fd : FinanceData) (s : String) (stOpt en : Option String)
    (y m : Nat) (hp : parseDate (s ++ "-01") = some ⟨y, m, 1⟩)
    (hm1 : 1 ≤ m) (hm2 : m ≤ 12) (hy1 : 1 ≤ y) (hy2 : y ≤ 9999)
    (hnot : ¬ (y = 9999 ∧ m = 12)) :
    fd.filter_period (some s) stOpt en = Except.ok
      ⟨fd.records.filter (fun r =>
        dateLeB ⟨y, m, 1⟩ r.fecha && dateLeB r.fecha ⟨y, m, daysInMonth y m⟩)⟩ := by
  have hne : ¬ s = "" := by
    intro h
    subst h
    have hval : parseDate ("" ++ "-01") = none := by decide
    rw [hval] at hp
    cases hp
  have ht : truthy (some s) = true := by
    have h1 : s.isEmpty = false := by
      rw [Bool.eq_false_iff]
      intro h
      exact hne ((String.isEmpty_iff s).mp h)
    simp [truthy, h1]
  unfold FinanceData.filter_period
  rw [ht]
  simp only [if_pos, Option.getD_some]
  refine congrArg Except.ok (congrArg FinanceData.mk (List.filter_congr ?_))
  intro r _
  show monthPred s r.fecha = _
  rw [monthPred, hp]
  show (match mendOf ⟨y, m, 1⟩ with
    | none => true
    | some mend => dateLeB ⟨y, m, 1⟩ r.fecha && dateLeB r.fecha mend) = _
  rw [mendOf_eq y m hm1 hm2 hy1 hy2 hnot]

/-- Witness for C5 at leap February 2024: filtering by `"2024-02"` keeps
the record dated 2024-02-29 and drops the one dated 2024-03-01. -/
theorem month_filter_exact_witness :
    fdFeb.filter_period (some "2024-02") none none = Except.ok ⟨[recFeb29]⟩ := by
  have hp : parseDate ("2024-02" ++ "-01") = some ⟨2024, 2, 1⟩ := by decide
  have h := month_filter_exact fdFeb "2024-02" none none 2024 2 hp
    (by omega) (by omega) (by omega) (by omega) (by omega)
  rw [h]
  decide
